import Mathlib

/-!
Verification of the manifest validation and bundle-assembly engine of
`scripts/build_ship_art.py` (the Nova-Engine ship-art build pipeline).

The Python program is shallowly embedded: JSON documents become the `Json`
inductive, `pathlib.Path` values become `PPath` (a flag for absoluteness plus
a list of components, with `.` and empty components collapsed at parse time,
exactly as `pathlib` does), and the filesystem becomes an explicit `FS` value
(current working directory plus the set of existing normalized absolute
paths; the model is symlink-free, so `Path.resolve()` is `..`-collapsing
normalization against the cwd).  Filesystem mutations performed by the
builder are recorded as an explicit list of `Effect`s instead of being
applied to a real disk; reading a manifest file from disk and decoding its
JSON text are outside the embedding, so `read_manifest` starts from the
already-decoded `Json` document.

Every exception site of the source has its own constructor: `ValidationError`
mirrors the script's `ValidationError` messages (rendered by
`ValidationError.toMessage`, reproducing the Python f-strings), while
`PyError.crash` stands for the non-`ValidationError` exceptions (`TypeError`
from iterating a non-iterable, `KeyError` from a missing dict key) that the
script does not catch.
-/

/-- A JSON value, as produced by `json.load`.  Objects are association lists
in document order (JSON-decoded dicts have unique keys). -/
inductive Json where
  | null
  | bool (b : Bool)
  | int (n : Int)
  | str (s : String)
  | arr (xs : List Json)
  | obj (kvs : List (String × Json))

/-- First-match association-list lookup: `dict.get(k)` on a JSON-decoded
object. -/
def jget (k : String) : List (String × Json) → Option Json
  | [] => none
  | (k', v) :: rest => if k' = k then some v else jget k rest

/-- Python truthiness of a JSON value (`if value:`). -/
def Json.truthy : Json → Bool
  | .null => false
  | .bool b => b
  | .int n => n != 0
  | .str s => s != ""
  | .arr xs => !xs.isEmpty
  | .obj kvs => !kvs.isEmpty

/-- A `pathlib.PurePosixPath`: absolute flag plus components.  As in
`pathlib`, empty segments and `.` segments are collapsed at construction;
`..` segments are kept (only `resolve()` removes them). -/
structure PPath where
  isAbs : Bool
  parts : List String
deriving DecidableEq, Repr

/-- Split a character list at `/` boundaries (the components of the raw
string, empty ones included); `acc` holds the current component reversed. -/
def splitSlash : List Char → List Char → List String
  | [], acc => [String.mk acc.reverse]
  | c :: rest, acc =>
    if c = '/' then String.mk acc.reverse :: splitSlash rest []
    else splitSlash rest (c :: acc)

/-- `Path(s)`: split on `/`, drop empty and `.` components, record whether
the string denoted an absolute path (a leading `/`). -/
def parsePath (s : String) : PPath :=
  ⟨(match s.data with | '/' :: _ => true | _ => false),
   (splitSlash s.data []).filter (fun c => c != "" && c != ".")⟩

/-- `a / b` on paths: an absolute right operand replaces the left one. -/
def PPath.join (a b : PPath) : PPath :=
  if b.isAbs then b else ⟨a.isAbs, a.parts ++ b.parts⟩

/-- `p / s` where `s` is a raw string (pathlib parses it). -/
def PPath.joinStr (a : PPath) (s : String) : PPath :=
  a.join (parsePath s)

/-- `Path.parent`: drop the last component. -/
def PPath.parent (p : PPath) : PPath :=
  ⟨p.isAbs, p.parts.dropLast⟩

/-- Render the components of a non-empty path, `/`-separated. -/
def joinParts : List String → String
  | [] => ""
  | [c] => c
  | c :: rest => c ++ "/" ++ joinParts rest

/-- `Path.as_posix()` (also `str(path)` on POSIX). -/
def PPath.asPosix (p : PPath) : String :=
  match p.parts with
  | [] => if p.isAbs then "/" else "."
  | parts => (if p.isAbs then "/" else "") ++ joinParts parts

/-- Collapse `..` components of an absolute component list (the symlink-free
part of `Path.resolve()`; `/..` stays at the root, as on POSIX). -/
def normalizeParts (parts : List String) : List String :=
  parts.foldl (fun acc c => if c = ".." then acc.dropLast else acc ++ [c]) []

/-- The filesystem as the embedding sees it: a (normalized, absolute)
current working directory and the set of existing nodes, each a normalized
absolute component list.  The model contains no symlinks. -/
structure FS where
  cwd : List String
  files : List (List String)

/-- `Path.resolve()` against the model: make absolute using the cwd, then
collapse `..` segments. -/
def resolveAbs (fs : FS) (p : PPath) : List String :=
  normalizeParts ((if p.isAbs then [] else fs.cwd) ++ p.parts)

/-- `child.relative_to(base)` succeeds (both already absolute and
normalized): `base`'s components are a prefix of `child`'s. -/
def isWithin (child base : List String) : Bool :=
  match base, child with
  | [], _ => true
  | _ :: _, [] => false
  | b :: bs, c :: cs => b == c && isWithin cs bs

/-- One constructor per `raise ValidationError(...)` site of the script
(plus the two file-level failures of `read_manifest`, unused here because
file I/O is outside the embedding).  `buildFailed` carries the already
rendered per-module messages, as the script stores `str(exc)` strings. -/
inductive ValidationError where
  | manifestNotFound (p : String)
  | manifestInvalidJson (msg : String)
  | rootNotObject
  | badVersion
  | badModulesArray
  | moduleNotObject
  | missingId
  | badType (module_id : String) (t : Json)
  | lodsNotArray (module_id : String)
  | lodNotObject (module_id : String) (idx : Nat)
  | badLodLevel (module_id : String) (level : Json)
  | duplicateLodLevel (module_id : String) (level : Int)
  | invalidPath (module_id field : String)
  | missingFile (module_id field : String) (p : PPath)
  | pathEscape (module_id field : String) (base : PPath) (p : PPath)
  | buildFailed (errors : List String)

/-- Exceptions as the driver sees them: a `ValidationError` (caught by
`main`) or an uncaught crash (`TypeError`/`KeyError`). -/
inductive PyError where
  | validation (e : ValidationError)
  | crash

/-- `str(value)` as used inside the f-strings (scalars; container values are
rendered abbreviated — no claim inspects a message holding one). -/
def pyStr : Json → String
  | .null => "None"
  | .bool b => if b then "True" else "False"
  | .int n => toString n
  | .str s => s
  | .arr _ => "[...]"
  | .obj _ => "\x7b...\x7d"

/-- `"\n".join(errors)`. -/
def joinLines : List String → String
  | [] => ""
  | [s] => s
  | s :: rest => s ++ "\n" ++ joinLines rest

/-- `str(exc)`: the exact message each `raise` site formats. -/
def ValidationError.toMessage : ValidationError → String
  | .manifestNotFound p => "Manifest not found: " ++ p
  | .manifestInvalidJson m => "Manifest JSON is invalid: " ++ m
  | .rootNotObject => "Manifest root must be an object"
  | .badVersion => "Manifest version 1 expected. Update the pipeline if schema changes."
  | .badModulesArray => "Manifest requires a non-empty 'modules' array"
  | .moduleNotObject => "Each module entry must be an object"
  | .missingId => "Module missing string 'id'"
  | .badType module_id t =>
      let tv := pyStr t
      "Module '" ++ module_id ++ "' has unsupported type '" ++ tv ++
        "'. Allowed: ['exhaust', 'hull', 'interior', 'wing']"
  | .lodsNotArray module_id =>
      "Module '" ++ module_id ++ "' requires a non-empty 'lods' array"
  | .lodNotObject module_id idx =>
      let n := toString idx
      "Module '" ++ module_id ++ "' LOD #" ++ n ++ " must be an object"
  | .badLodLevel module_id level =>
      let lv := pyStr level
      "Module '" ++ module_id ++ "' has invalid LOD level: " ++ lv
  | .duplicateLodLevel module_id level =>
      let lv := toString level
      "Module '" ++ module_id ++ "' reuses LOD level " ++ lv
  | .invalidPath module_id field =>
      "Module '" ++ module_id ++ "' has invalid " ++ field ++ ": expected string path"
  | .missingFile module_id field p =>
      let ps := p.asPosix
      "Module '" ++ module_id ++ "' references missing file for " ++ field ++ ": " ++ ps
  | .pathEscape module_id field base p =>
      let bs := base.asPosix
      let ps := p.asPosix
      "Module '" ++ module_id ++ "' " ++ field ++ " must stay within " ++ bs ++ ". Got: " ++ ps
  | .buildFailed errors =>
      let n := toString errors.length
      let joined := joinLines errors
      "Build failed with " ++ n ++ " error(s):\n" ++ joined

/-- `ensure_relative_path(base_dir, relative_str, field, module_id)`:
checks the raw value is a non-empty string, resolves it against `base_dir`,
then — in this order — requires the resolved location to exist and to stay
within the resolved base directory.  Returns the resolved absolute path. -/
def ensure_relative_path (fs : FS) (base_dir : PPath) (relative_str : Json)
    (field : String) (module_id : String) : Except ValidationError (List String) :=
  match relative_str with
  | .str s =>
    if s = "" then .error (.invalidPath module_id field)
    else
      let relative_path := parsePath s
      let resolved := resolveAbs fs (base_dir.join relative_path)
      if resolved ∈ fs.files then
        if isWithin resolved (resolveAbs fs base_dir) then .ok resolved
        else .error (.pathEscape module_id field base_dir relative_path)
      else .error (.missingFile module_id field relative_path)
  | _ => .error (.invalidPath module_id field)

/-- The allowed module types (`MODULE_TYPES`).  Membership is the only use,
so a list models the Python set. -/
def MODULE_TYPES : List String := ["hull", "wing", "exhaust", "interior"]

/-- A validated LOD entry: non-negative level, resolved mesh path, optional
resolved collision path. -/
structure LodEntry where
  level : Int
  mesh : List String
  collision : Option (List String)
deriving DecidableEq, Repr

/-- A validated module (`ModuleAsset`): identity, type, display name, the
raw source definition, and the resolved file lists. -/
structure ModuleAsset where
  module_id : String
  module_type : String
  display_name : Json
  source : List (String × Json)
  lods : List LodEntry
  materials : List (List String)
  thumbnails : List (List String)
  extra_files : List (List String)

/-- Lift a `ValidationError` result into the full exception type. -/
def liftV {α : Type} : Except ValidationError α → Except PyError α
  | .error e => .error (.validation e)
  | .ok a => .ok a

/-- Python iteration over a JSON value (`for x in value:`): lists yield their
elements, strings their one-character substrings, dicts their keys; `None`,
booleans and integers raise `TypeError`. -/
def pyIter : Json → Except PyError (List Json)
  | .arr xs => .ok xs
  | .str s => .ok (s.toList.map (fun c => Json.str (String.mk [c])))
  | .obj kvs => .ok (kvs.map (fun kv => Json.str kv.1))
  | _ => .error .crash

/-- `defn.get(k, [])` followed by iteration: a missing key yields no
entries, a present value is iterated Python-style. -/
def pyIterField (kvs : List (String × Json)) (k : String) : Except PyError (List Json) :=
  match jget k kvs with
  | none => .ok []
  | some v => pyIter v

/-- Resolve every entry of a list through `ensure_relative_path`, stopping
at the first failure (the loop's first raised exception). -/
def resolveList (fs : FS) (assets_dir : PPath) (field module_id : String) :
    List Json → Except ValidationError (List (List String))
  | [] => .ok []
  | v :: rest =>
    match ensure_relative_path fs assets_dir v field module_id with
    | .error e => .error e
    | .ok p =>
      match resolveList fs assets_dir field module_id rest with
      | .error e => .error e
      | .ok ps => .ok (p :: ps)

/-- The LOD loop of `parse_module`: `idx` is the enumeration index and
`seen` the set of levels already taken (the `seen_levels` set; only
membership is used).  Checks, in source order: the entry is an object, the
level is a non-negative integer, the level is new, the mesh resolves, and —
when the raw `collision` value is truthy — the collision resolves. -/
def parseLods (fs : FS) (assets_dir : PPath) (module_id : String) :
    List Json → Nat → List Int → Except ValidationError (List LodEntry)
  | [], _, _ => .ok []
  | lod :: rest, idx, seen =>
    match lod with
    | .obj lkvs =>
      match jget "level" lkvs with
      | some (.int level) =>
        if level < 0 then .error (.badLodLevel module_id (.int level))
        else if level ∈ seen then .error (.duplicateLodLevel module_id level)
        else
          match ensure_relative_path fs assets_dir ((jget "mesh" lkvs).getD .null) "mesh" module_id with
          | .error e => .error e
          | .ok mesh =>
            match
              (if ((jget "collision" lkvs).getD .null).truthy then
                match ensure_relative_path fs assets_dir ((jget "collision" lkvs).getD .null) "collision" module_id with
                | .error e => .error e
                | .ok c => .ok (some c)
              else .ok none : Except ValidationError (Option (List String)))
            with
            | .error e => .error e
            | .ok collision =>
              match parseLods fs assets_dir module_id rest (idx + 1) (level :: seen) with
              | .error e => .error e
              | .ok entries => .ok (⟨level, mesh, collision⟩ :: entries)
      | some v => .error (.badLodLevel module_id v)
      | none => .error (.badLodLevel module_id .null)
    | _ => .error (.lodNotObject module_id idx)

/-- The thumbnail handling of `parse_module` (lines 143-149): a `thumbnails`
value that is a list has each entry resolved; otherwise (missing *or*
present but not a list) the legacy string field `thumbnail` is consulted,
and a non-string legacy value yields the empty list. -/
def parseThumbnails (fs : FS) (assets_dir : PPath) (module_id : String)
    (kvs : List (String × Json)) : Except ValidationError (List (List String)) :=
  match jget "thumbnails" kvs with
  | some (.arr ts) => resolveList fs assets_dir "thumbnail" module_id ts
  | _ =>
    match jget "thumbnail" kvs with
    | some (.str s) =>
      match ensure_relative_path fs assets_dir (.str s) "thumbnail" module_id with
      | .error e => .error e
      | .ok p => .ok [p]
    | _ => .ok []

/-- `parse_module(defn, assets_dir)`: validate one module definition.  JSON
booleans are modelled as non-integers (the Python `bool`-is-`int` corner is
not exercised by any manifest of interest). -/
def parse_module (fs : FS) (defn : Json) (assets_dir : PPath) : Except PyError ModuleAsset :=
  match defn with
  | .obj kvs =>
    match jget "id" kvs with
    | some (.str module_id) =>
      if module_id = "" then .error (.validation .missingId)
      else
        match jget "type" kvs with
        | some (.str module_type) =>
          if module_type ∈ MODULE_TYPES then
            let display_name := (jget "displayName" kvs).getD (.str module_id)
            match jget "lods" kvs with
            | some (.arr lod_raw) =>
              if lod_raw.isEmpty then .error (.validation (.lodsNotArray module_id))
              else
                match liftV (parseLods fs assets_dir module_id lod_raw 0 []) with
                | .error e => .error e
                | .ok lods =>
                  match pyIterField kvs "materials" with
                  | .error e => .error e
                  | .ok materialsRaw =>
                    match liftV (resolveList fs assets_dir "materials" module_id materialsRaw) with
                    | .error e => .error e
                    | .ok materials =>
                      match liftV (parseThumbnails fs assets_dir module_id kvs) with
                      | .error e => .error e
                      | .ok thumbnails =>
                        match pyIterField kvs "extraFiles" with
                        | .error e => .error e
                        | .ok extrasRaw =>
                          match liftV (resolveList fs assets_dir "extraFiles" module_id extrasRaw) with
                          | .error e => .error e
                          | .ok extra_files =>
                            .ok ⟨module_id, module_type, display_name, kvs,
                                 lods, materials, thumbnails, extra_files⟩
            | _ => .error (.validation (.lodsNotArray module_id))
          else .error (.validation (.badType module_id (.str module_type)))
        | some v => .error (.validation (.badType module_id v))
        | none => .error (.validation (.badType module_id .null))
    | some _ => .error (.validation .missingId)
    | none => .error (.validation .missingId)
  | _ => .error (.validation .moduleNotObject)

/-- A recorded filesystem mutation of the builder.  The script performs no
deletions, so there is no removal effect: everything written stays. -/
inductive Effect where
  | mkdirp (p : PPath)
  | copy (src : List String) (dest : PPath)
  | writeManifest (p : PPath) (doc : Json)

/-- `src.name`: the final component of a path (empty for the root). -/
def pathName (p : List String) : String :=
  p.getLast?.getD ""

/-- `copy_into_bundle(files, bundle_root, target_subdir, dry_run)`: for each
source file, the destination is `target_subdir / src.name` under
`bundle_root`; outside dry-run the parent directory is created and the file
copied; the returned strings are the bundle-relative POSIX destinations and
are computed identically in both modes. -/
def copy_into_bundle (files : List (List String)) (bundle_root target_subdir : PPath)
    (dry_run : Bool) : List Effect × List String :=
  match files with
  | [] => ([], [])
  | src :: rest =>
    let rel_target := target_subdir.joinStr (pathName src)
    let dest := bundle_root.join rel_target
    let (effs, copied) := copy_into_bundle rest bundle_root target_subdir dry_run
    ((if dry_run then [] else [.mkdirp dest.parent, .copy src dest]) ++ effs,
     rel_target.asPosix :: copied)

/-- The recognized pass-through metadata keys of `build_bundle`. -/
def passThroughKeys : List String :=
  ["description", "sockets", "interiorAnchor", "metrics", "compatibleSockets",
   "mirrorOf", "tags", "dependencies", "vfxHooks"]

/-- The per-LOD part of `build_bundle`'s module loop: copy the mesh (and the
collision file when present) into `lod_<level>/` and build the rewritten
LOD record. -/
def processLods (output_dir module_target : PPath) (dry_run : Bool) :
    List LodEntry → List Effect × List Json
  | [] => ([], [])
  | lod :: rest =>
    let files := lod.mesh :: (match lod.collision with | some c => [c] | none => [])
    let (effs, copied) :=
      copy_into_bundle files output_dir (module_target.joinStr ("lod_" ++ toString lod.level)) dry_run
    let entry := Json.obj
      ([("level", Json.int lod.level), ("mesh", Json.str (copied.headD ""))]
        ++ (match lod.collision with
            | some _ => [("collision", Json.str (copied.getD 1 ""))]
            | none => []))
    let (restEffs, restEntries) := processLods output_dir module_target dry_run rest
    (effs ++ restEffs, entry :: restEntries)

/-- The body of `build_bundle`'s loop for one already-validated module:
perform (or simulate) all copies and build the sanitized manifest record. -/
def processModule (m : ModuleAsset) (output_dir : PPath) (dry_run : Bool) :
    List Effect × List (String × Json) :=
  let module_target := ((parsePath "modules").joinStr m.module_type).joinStr m.module_id
  let (lodEffs, lod_outputs) := processLods output_dir module_target dry_run m.lods
  let (matEffs, materials_out) :=
    copy_into_bundle m.materials output_dir (module_target.joinStr "materials") dry_run
  let (thumbEffs, thumbs_out) :=
    copy_into_bundle m.thumbnails output_dir (module_target.joinStr "thumbnails") dry_run
  let (extraEffs, extras_out) :=
    copy_into_bundle m.extra_files output_dir (module_target.joinStr "extras") dry_run
  let sanitized :=
    [("id", Json.str m.module_id), ("type", Json.str m.module_type),
     ("displayName", m.display_name), ("lods", Json.arr lod_outputs)]
    ++ passThroughKeys.filterMap (fun k => (jget k m.source).map (fun v => (k, v)))
    ++ (if materials_out.isEmpty then [] else [("materials", Json.arr (materials_out.map Json.str))])
    ++ (if thumbs_out.isEmpty then [] else [("thumbnails", Json.arr (thumbs_out.map Json.str))])
    ++ (if extras_out.isEmpty then [] else [("extraFiles", Json.arr (extras_out.map Json.str))])
  (lodEffs ++ matEffs ++ thumbEffs ++ extraEffs, sanitized)

/-- The module loop of `build_bundle`: a `ValidationError` from
`parse_module` is recorded as `str(exc)` and the loop continues with the
next module; any other exception aborts the loop (`none`).  Returns the
accumulated effects together with the sanitized records and the collected
error messages, all in manifest order. -/
def buildLoop (fs : FS) (assets_dir output_dir : PPath) (dry_run : Bool) :
    List Json → List Effect × Option (List Json × List String)
  | [] => ([], some ([], []))
  | d :: rest =>
    match parse_module fs d assets_dir with
    | .error .crash => ([], none)
    | .error (.validation e) =>
      let (effs, r) := buildLoop fs assets_dir output_dir dry_run rest
      (effs, r.map (fun p => (p.1, e.toMessage :: p.2)))
    | .ok m =>
      let (meffs, sanitized) := processModule m output_dir dry_run
      let (effs, r) := buildLoop fs assets_dir output_dir dry_run rest
      (meffs ++ effs, r.map (fun p => (Json.obj sanitized :: p.1, p.2)))

/-- `build_bundle(assets_dir, manifest, output_dir, dry_run)`: iterate the
manifest's modules collecting failures; if any failure was collected raise
the single combined `ValidationError`; otherwise assemble the compiled
document and, outside dry-run, create the output directory and write it to
`ship_art_manifest.compiled.json`. -/
def build_bundle (fs : FS) (assets_dir : PPath) (manifest : Json) (output_dir : PPath)
    (dry_run : Bool) : List Effect × Except PyError Json :=
  match manifest with
  | .obj kvs =>
    match jget "modules" kvs with
    | none => ([], .error .crash)
    | some mraw =>
      match pyIter mraw with
      | .error _ => ([], .error .crash)
      | .ok mods =>
        let (effs, r) := buildLoop fs assets_dir output_dir dry_run mods
        match r with
        | none => (effs, .error .crash)
        | some (modules_out, errors) =>
          if errors.isEmpty then
            match jget "version" kvs with
            | none => (effs, .error .crash)
            | some v =>
              let compiled := Json.obj
                [("version", v), ("generated", Json.bool true),
                 ("modules", Json.arr modules_out)]
              if dry_run then (effs, .ok compiled)
              else
                (effs ++ [.mkdirp output_dir,
                          .writeManifest (output_dir.joinStr "ship_art_manifest.compiled.json") compiled],
                 .ok compiled)
          else (effs, .error (.validation (.buildFailed errors)))
  | _ => ([], .error .crash)

/-- `read_manifest`, from the already-decoded document onward: the root must
be an object, `version` must equal `1`, and `modules` must be a non-empty
list; on success the document itself is returned. -/
def read_manifest (data : Json) : Except ValidationError Json :=
  match data with
  | .obj kvs =>
    match jget "version" kvs with
    | some (.int n) =>
      if n = 1 then
        match jget "modules" kvs with
        | some (.arr ms) => if ms.isEmpty then .error .badModulesArray else .ok data
        | _ => .error .badModulesArray
      else .error .badVersion
    | _ => .error .badVersion
  | _ => .error .rootNotObject

/-- The engine as `main` drives it: `read_manifest` followed by
`build_bundle`; a top-level failure produces no effects and no module
validation. -/
def runPipeline (fs : FS) (assets_dir : PPath) (doc : Json) (output_dir : PPath)
    (dry_run : Bool) : List Effect × Except PyError Json :=
  match read_manifest doc with
  | .error e => ([], .error (.validation e))
  | .ok m => build_bundle fs assets_dir m output_dir dry_run

/-- Does a result carry the `PathEscape`-class failure (the `must stay
within` message)? -/
def ValidationError.isPathEscape : ValidationError → Bool
  | .pathEscape _ _ _ _ => true
  | _ => false

/-- `PathEscape` classification of a whole `ensure_relative_path` result. -/
def escapeClassOf : Except ValidationError (List String) → Bool
  | .error e => e.isPathEscape
  | .ok _ => false

/-- Did `ensure_relative_path` succeed? -/
def isOkResolve : Except ValidationError (List String) → Bool
  | .ok _ => true
  | .error _ => false

/-- Did `parse_module` abort with an uncaught crash? -/
def isCrashR : Except PyError ModuleAsset → Bool
  | .error .crash => true
  | _ => false

/-- Did `parse_module` fail with a (caught) `ValidationError`? -/
def isVErrR : Except PyError ModuleAsset → Bool
  | .error (.validation _) => true
  | _ => false

/-- Is the JSON value an object? -/
def Json.isObj : Json → Bool
  | .obj _ => true
  | _ => false

/-- Is the JSON value a list? -/
def Json.isArr : Json → Bool
  | .arr _ => true
  | _ => false

/-- The top-level `version == 1` test of `read_manifest`. -/
def versionIs1 (kvs : List (String × Json)) : Bool :=
  match jget "version" kvs with
  | some (.int n) => n == 1
  | _ => false

/-- The top-level `modules` shape test of `read_manifest`: present, a list,
non-empty. -/
def modulesNonemptyList (kvs : List (String × Json)) : Bool :=
  match jget "modules" kvs with
  | some (.arr ms) => !ms.isEmpty
  | _ => false

/-- A string that `pathlib` parses as a single ordinary relative component:
the shape of any real file basename or module identifier. -/
def plainName (s : String) : Prop := parsePath s = ⟨false, [s]⟩

instance (s : String) : Decidable (plainName s) := by
  unfold plainName
  infer_instance

/-- The raw `level` of one manifest LOD entry (defaulting to `0`; only used
under hypotheses that force the genuine integer shape). -/
def lodLevel : Json → Int
  | .obj lkvs =>
    match jget "level" lkvs with
    | some (.int lv) => lv
    | _ => 0
  | _ => 0

/-- One manifest LOD entry that would pass every per-entry check of the LOD
loop in isolation: an object with a non-negative integer level, a mesh that
resolves, and a collision that resolves whenever its raw value is truthy. -/
def validLodB (fs : FS) (assets_dir : PPath) (module_id : String) : Json → Bool
  | .obj lkvs =>
    (match jget "level" lkvs with
     | some (.int lv) => decide (0 ≤ lv)
     | _ => false)
    && isOkResolve (ensure_relative_path fs assets_dir ((jget "mesh" lkvs).getD .null) "mesh" module_id)
    && (!((jget "collision" lkvs).getD .null).truthy
        || isOkResolve (ensure_relative_path fs assets_dir ((jget "collision" lkvs).getD .null) "collision" module_id))
  | _ => false

/-- Every file a validated module references, in copy order. -/
def ModuleAsset.allFiles (m : ModuleAsset) : List (List String) :=
  m.lods.flatMap (fun lod => lod.mesh :: (match lod.collision with | some c => [c] | none => []))
    ++ m.materials ++ m.thumbnails ++ m.extra_files

/-- The message a failing module contributes to the collected error list
(`str(exc)`), or `none` when the module validates or crashes. -/
def moduleMsg (fs : FS) (assets_dir : PPath) (d : Json) : Option String :=
  match parse_module fs d assets_dir with
  | .error (.validation e) => some e.toMessage
  | _ => none

/-- The canonical destination subtree of a module:
`modules/<type>/<id>`. -/
def moduleTarget (m : ModuleAsset) : PPath :=
  ((parsePath "modules").joinStr m.module_type).joinStr m.module_id

/-- The bundle-relative destination string of one copied file:
`target_subdir / src.name`, rendered POSIX-style.  It depends neither on the
output root nor on the dry-run flag. -/
def destStr (sub : PPath) (src : List String) : String :=
  (sub.joinStr (pathName src)).asPosix

/-- The rewritten LOD record the compiled manifest holds for one LOD. -/
def lodEntryOut (tgt : PPath) (lod : LodEntry) : Json :=
  Json.obj
    ([("level", Json.int lod.level),
      ("mesh", Json.str (destStr (tgt.joinStr ("lod_" ++ toString lod.level)) lod.mesh))]
     ++ (match lod.collision with
         | some c =>
           [("collision", Json.str (destStr (tgt.joinStr ("lod_" ++ toString lod.level)) c))]
         | none => []))

/-- The sanitized record of one validated module, as `build_bundle` emits
it; a function of the module alone (`processModule`'s second component,
dry-run or not, for any output root). -/
def sanitizedOf (m : ModuleAsset) : List (String × Json) :=
  [("id", Json.str m.module_id), ("type", Json.str m.module_type),
   ("displayName", m.display_name),
   ("lods", Json.arr (m.lods.map (lodEntryOut (moduleTarget m))))]
  ++ passThroughKeys.filterMap (fun k => (jget k m.source).map (fun v => (k, v)))
  ++ (if m.materials.isEmpty then []
      else [("materials", Json.arr (m.materials.map
              (fun f => Json.str (destStr ((moduleTarget m).joinStr "materials") f))))])
  ++ (if m.thumbnails.isEmpty then []
      else [("thumbnails", Json.arr (m.thumbnails.map
              (fun f => Json.str (destStr ((moduleTarget m).joinStr "thumbnails") f))))])
  ++ (if m.extra_files.isEmpty then []
      else [("extraFiles", Json.arr (m.extra_files.map
              (fun f => Json.str (destStr ((moduleTarget m).joinStr "extras") f))))])

/-- The compiled-manifest record a manifest entry contributes: the
sanitized record when it validates, `none` when it fails or crashes. -/
def moduleOut (fs : FS) (assets_dir : PPath) (d : Json) : Option Json :=
  match parse_module fs d assets_dir with
  | .ok m => some (Json.obj (sanitizedOf m))
  | _ => none

/-! Concrete fixtures: a small filesystem and a handful of manifests, used
by the counterexample and witness theorems. -/

/-- A small filesystem: the asset root `/assets` with a few files, plus a
file `/secret` outside the root. -/
def fsX : FS :=
  ⟨[], [["assets"], ["assets", "mesh0.glb"], ["assets", "mesh1.glb"],
        ["assets", "col0.glb"], ["assets", "mat.png"], ["assets", "thumb.png"],
        ["secret"]]⟩

/-- The asset root of the fixtures. -/
def assetsX : PPath := parsePath "/assets"

/-- The output root of the fixtures. -/
def outX : PPath := parsePath "/build"

/-- A fully valid module: two LODs (level 0 with a collision file), one
material, one pass-through key. -/
def modGood : Json := .obj
  [("id", .str "core"), ("type", .str "hull"), ("description", .str "the hull"),
   ("lods", .arr
     [.obj [("level", .int 0), ("mesh", .str "mesh0.glb"), ("collision", .str "col0.glb")],
      .obj [("level", .int 1), ("mesh", .str "mesh1.glb")]]),
   ("materials", .arr [.str "mat.png"])]

/-- A module reusing LOD level 0 twice (otherwise valid). -/
def modLvlDup : Json := .obj
  [("id", .str "dup"), ("type", .str "wing"),
   ("lods", .arr
     [.obj [("level", .int 0), ("mesh", .str "mesh0.glb")],
      .obj [("level", .int 0), ("mesh", .str "mesh1.glb")]])]

/-- A module referencing a missing mesh file. -/
def modBroken : Json := .obj
  [("id", .str "broken"), ("type", .str "hull"),
   ("lods", .arr [.obj [("level", .int 0), ("mesh", .str "nope.glb")]])]

/-- A second valid module, one LOD at level 0 (the same level `modGood`
uses). -/
def modShare : Json := .obj
  [("id", .str "aux"), ("type", .str "wing"),
   ("lods", .arr [.obj [("level", .int 0), ("mesh", .str "mesh1.glb")]])]

/-- A valid module whose id is the string `.` (a legal non-empty id the
validator accepts). -/
def modDotId : Json := .obj
  [("id", .str "."), ("type", .str "hull"),
   ("lods", .arr [.obj [("level", .int 0), ("mesh", .str "mesh0.glb")]])]

/-- Two otherwise-valid modules sharing the id `dup` and the type `hull`. -/
def manifestSameId : Json := .obj
  [("version", .int 1), ("modules", .arr
    [.obj [("id", .str "dup"), ("type", .str "hull"),
           ("lods", .arr [.obj [("level", .int 0), ("mesh", .str "mesh0.glb")]])],
     .obj [("id", .str "dup"), ("type", .str "hull"),
           ("lods", .arr [.obj [("level", .int 1), ("mesh", .str "mesh1.glb")]])]])]

/-- A manifest mixing two failing modules with a valid one. -/
def manifestMixed : Json := .obj
  [("version", .int 1), ("modules", .arr [modLvlDup, modGood, modBroken])]

/-- A manifest with two valid modules that share LOD level 0. -/
def manifestShared : Json := .obj
  [("version", .int 1), ("modules", .arr [modGood, modShare])]

/-- A manifest whose single module has id `.`. -/
def manifestDotId : Json := .obj
  [("version", .int 1), ("modules", .arr [modDotId])]

/-- A module whose `thumbnails` value is a (non-list) integer and which also
carries a legacy `thumbnail` string. -/
def kvsThumbs : List (String × Json) :=
  [("id", .str "t"), ("thumbnails", .int 5), ("thumbnail", .str "thumb.png")]

/-- Does `parse_module` fail with the duplicate-LOD-level failure for the
given module id? -/
def isDupLodError (module_id : String) : Except PyError ModuleAsset → Bool
  | .error (.validation (.duplicateLodLevel mid _)) => mid == module_id
  | _ => false

/-- The validated form of `modGood`. -/
def mGood : ModuleAsset :=
  ⟨"core", "hull", .str "core",
   [("id", .str "core"), ("type", .str "hull"), ("description", .str "the hull"),
    ("lods", .arr
      [.obj [("level", .int 0), ("mesh", .str "mesh0.glb"), ("collision", .str "col0.glb")],
       .obj [("level", .int 1), ("mesh", .str "mesh1.glb")]]),
    ("materials", .arr [.str "mat.png"])],
   [⟨0, ["assets", "mesh0.glb"], some ["assets", "col0.glb"]⟩,
    ⟨1, ["assets", "mesh1.glb"], none⟩],
   [["assets", "mat.png"]], [], []⟩

/-- The validated form of `modShare`. -/
def mShare : ModuleAsset :=
  ⟨"aux", "wing", .str "aux",
   [("id", .str "aux"), ("type", .str "wing"),
    ("lods", .arr [.obj [("level", .int 0), ("mesh", .str "mesh1.glb")]])],
   [⟨0, ["assets", "mesh1.glb"], none⟩], [], [], []⟩

/-- C1 counterexample: the reference `../nofile` resolves outside the asset
root `/assets` (first conjunct), yet because the resolved target does not
exist the validator rejects it with the `MissingFile` failure, not the
`PathEscape`-class one: the existence check runs before the containment
check. -/
theorem spec_C1_cex :
    isWithin (resolveAbs fsX (assetsX.join (parsePath "../nofile"))) (resolveAbs fsX assetsX) = false
    ∧ ensure_relative_path fsX assetsX (.str "../nofile") "mesh" "core"
        = .error (.missingFile "core" "mesh" (parsePath "../nofile"))
    ∧ escapeClassOf (ensure_relative_path fsX assetsX (.str "../nofile") "mesh" "core") = false :=
  ⟨rfl, rfl, rfl⟩

/-- C1 (amended): a non-empty string reference whose fully-normalized
resolution lies outside the fully-normalized asset root is always rejected —
with the `PathEscape`-class failure (the `must stay within` message) when
the resolved target exists, and with the `MissingFile`-class failure when it
does not (the existence check precedes the containment check). -/
theorem spec_C1 (fs : FS) (base : PPath) (s field module_id : String)
    (hs : ¬ s = "")
    (hesc : isWithin (resolveAbs fs (base.join (parsePath s))) (resolveAbs fs base) = false) :
    (resolveAbs fs (base.join (parsePath s)) ∈ fs.files →
       ensure_relative_path fs base (.str s) field module_id
         = .error (.pathEscape module_id field base (parsePath s)))
    ∧ (resolveAbs fs (base.join (parsePath s)) ∉ fs.files →
       ensure_relative_path fs base (.str s) field module_id
         = .error (.missingFile module_id field (parsePath s))) := by
  constructor
  · intro hmem
    simp only [ensure_relative_path, if_neg hs]
    rw [if_pos hmem, hesc]
    simp
  · intro hmem
    simp only [ensure_relative_path, if_neg hs]
    rw [if_neg hmem]

/-- C1 witness: the existing file `/secret` referenced as `../secret` from
`/assets` is rejected with the `PathEscape`-class failure. -/
theorem spec_C1_witness :
    ensure_relative_path fsX assetsX (.str "../secret") "mesh" "core"
      = .error (.pathEscape "core" "mesh" assetsX (parsePath "../secret")) :=
  (spec_C1 fsX assetsX "../secret" "mesh" "core" (by decide) (by decide)).1 (by decide)

/-- C9: module id uniqueness is never checked across the manifest — a
manifest with two otherwise-valid modules that share id `dup` and type
`hull` builds successfully, both modules appear in the compiled manifest,
and both destination subtrees are `modules/hull/dup/`. -/
theorem spec_C9 :
    (runPipeline fsX assetsX manifestSameId outX false).2
      = .ok (.obj
          [("version", .int 1), ("generated", .bool true),
           ("modules", .arr
             [.obj [("id", .str "dup"), ("type", .str "hull"), ("displayName", .str "dup"),
                    ("lods", .arr [.obj [("level", .int 0),
                                         ("mesh", .str "modules/hull/dup/lod_0/mesh0.glb")]])],
              .obj [("id", .str "dup"), ("type", .str "hull"), ("displayName", .str "dup"),
                    ("lods", .arr [.obj [("level", .int 1),
                                         ("mesh", .str "modules/hull/dup/lod_1/mesh1.glb")]])]])])
    ∧ "modules/hull/dup/".data.isPrefixOf "modules/hull/dup/lod_0/mesh0.glb".data = true
    ∧ "modules/hull/dup/".data.isPrefixOf "modules/hull/dup/lod_1/mesh1.glb".data = true :=
  ⟨rfl, rfl, rfl⟩

/-- Unfolding equation of `read_manifest` at an object document. -/
theorem read_manifest_obj (kvs : List (String × Json)) :
    read_manifest (.obj kvs)
      = (match jget "version" kvs with
         | some (.int n) =>
           if n = 1 then
             match jget "modules" kvs with
             | some (.arr ms) => if ms.isEmpty then .error .badModulesArray else .ok (.obj kvs)
             | _ => .error .badModulesArray
           else .error .badVersion
         | _ => .error .badVersion) := rfl

/-- C6: the three top-level manifest checks are decided before any module is
examined, each failing alone with its single `ValidationError` and an empty
effect list; the result does not depend on the modules' contents, the
filesystem, or the flags, so no per-module validation is attempted. -/
theorem spec_C6 (doc : Json) (fs : FS) (assets out : PPath) (dry : Bool) :
    (doc.isObj = false →
       runPipeline fs assets doc out dry = ([], .error (.validation .rootNotObject)))
    ∧ (∀ kvs, doc = .obj kvs → versionIs1 kvs = false →
       runPipeline fs assets doc out dry = ([], .error (.validation .badVersion)))
    ∧ (∀ kvs, doc = .obj kvs → versionIs1 kvs = true → modulesNonemptyList kvs = false →
       runPipeline fs assets doc out dry = ([], .error (.validation .badModulesArray))) := by
  refine ⟨?_, ?_, ?_⟩
  · intro h
    cases doc <;> first
      | rfl
      | simp [Json.isObj] at h
  · intro kvs hdoc hv
    subst hdoc
    unfold versionIs1 at hv
    have hrm : read_manifest (.obj kvs) = .error .badVersion := by
      rw [read_manifest_obj]
      split
      · rename_i n heq
        rw [heq] at hv
        simp at hv
        rw [if_neg hv]
      · rfl
    unfold runPipeline
    rw [hrm]
  · intro kvs hdoc hv hm
    subst hdoc
    have hjv : jget "version" kvs = some (.int 1) := by
      unfold versionIs1 at hv
      split at hv
      · rename_i n heq
        simp at hv
        subst hv
        exact heq
      · exact absurd hv (by simp)
    have hrm : read_manifest (.obj kvs) = .error .badModulesArray := by
      rw [read_manifest_obj, hjv]
      show (match jget "modules" kvs with
            | some (.arr ms) =>
              if ms.isEmpty = true then Except.error ValidationError.badModulesArray
              else Except.ok (Json.obj kvs)
            | _ => Except.error ValidationError.badModulesArray)
          = Except.error ValidationError.badModulesArray
      unfold modulesNonemptyList at hm
      split
      · rename_i ms heqm
        rw [heqm] at hm
        simp at hm
        simp [hm]
      · rfl
    unfold runPipeline
    rw [hrm]

/-- C6 witness: each of the three top-level failures at a concrete
malformed document. -/
theorem spec_C6_witness :
    runPipeline fsX assetsX (.arr []) outX false
      = ([], .error (.validation .rootNotObject))
    ∧ runPipeline fsX assetsX (.obj [("version", .int 2)]) outX false
      = ([], .error (.validation .badVersion))
    ∧ runPipeline fsX assetsX (.obj [("version", .int 1), ("modules", .arr [])]) outX false
      = ([], .error (.validation .badModulesArray)) :=
  ⟨(spec_C6 (.arr []) fsX assetsX outX false).1 rfl,
   (spec_C6 (.obj [("version", .int 2)]) fsX assetsX outX false).2.1 _ rfl rfl,
   (spec_C6 (.obj [("version", .int 1), ("modules", .arr [])]) fsX assetsX outX false).2.2 _ rfl rfl rfl⟩

/-- C10: in `parse_module`'s thumbnail handling, a present but non-list
`thumbnails` value is silently ignored — the result is exactly what the
legacy single-string `thumbnail` field yields (the empty list when that is
absent or not a string) — and when `thumbnails` is a list, only its entries
are resolved: the result is the resolution of the list alone, with the
legacy field never consulted. -/
theorem spec_C10 :
    (∀ (fs : FS) (assets : PPath) (module_id : String) (kvs : List (String × Json)) (v : Json),
       jget "thumbnails" kvs = some v → v.isArr = false →
       parseThumbnails fs assets module_id kvs
         = (match jget "thumbnail" kvs with
            | some (.str s) =>
              match ensure_relative_path fs assets (.str s) "thumbnail" module_id with
              | .error e => .error e
              | .ok p => .ok [p]
            | _ => .ok []))
    ∧ (∀ (fs : FS) (assets : PPath) (module_id : String) (kvs : List (String × Json))
         (ts : List Json),
       jget "thumbnails" kvs = some (.arr ts) →
       parseThumbnails fs assets module_id kvs
         = resolveList fs assets "thumbnail" module_id ts) := by
  constructor
  · intro fs assets mid kvs v hv hnarr
    unfold parseThumbnails
    rw [hv]
    cases v <;> first
      | rfl
      | simp [Json.isArr] at hnarr
  · intro fs assets mid kvs ts hv
    unfold parseThumbnails
    rw [hv]

/-- C10 witness: with `thumbnails: 5` and legacy `thumbnail: "thumb.png"`,
validation ignores the non-list without failing and resolves the legacy
string. -/
theorem spec_C10_witness :
    parseThumbnails fsX assetsX "t" kvsThumbs = .ok [["assets", "thumb.png"]] :=
  (spec_C10.1 fsX assetsX "t" kvsThumbs (.int 5) rfl rfl).trans rfl

/-- A mapped list is empty exactly when the original is. -/
theorem map_isEmpty {α β : Type} (f : α → β) (l : List α) :
    (l.map f).isEmpty = l.isEmpty := by
  cases l <;> rfl

/-- The destination strings `copy_into_bundle` reports: one per source file,
independent of the bundle root and of the dry-run flag. -/
theorem copy_into_bundle_strings (root sub : PPath) (dry : Bool) :
    ∀ files : List (List String),
      (copy_into_bundle files root sub dry).2 = files.map (fun src => destStr sub src) := by
  intro files
  induction files with
  | nil => rfl
  | cons src rest ih =>
    unfold copy_into_bundle
    rcases hrec : copy_into_bundle rest root sub dry with ⟨effs, copied⟩
    rw [hrec] at ih
    simp only [hrec, List.map]
    show destStr sub src :: copied = _
    exact congrArg (destStr sub src :: ·) ih

/-- The LOD records `processLods` emits: `lodEntryOut` per LOD, independent
of the output root and of the dry-run flag. -/
theorem processLods_snd (out tgt : PPath) (dry : Bool) :
    ∀ lods : List LodEntry,
      (processLods out tgt dry lods).2 = lods.map (lodEntryOut tgt) := by
  intro lods
  induction lods with
  | nil => rfl
  | cons lod rest ih =>
    unfold processLods
    rcases hrec : processLods out tgt dry rest with ⟨reffs, rentries⟩
    rw [hrec] at ih
    have ih2 : rentries = rest.map (lodEntryOut tgt) := ih
    cases hcol : lod.collision with
    | none =>
      have hstr := copy_into_bundle_strings out (tgt.joinStr ("lod_" ++ toString lod.level)) dry
        [lod.mesh]
      rcases hcopy : copy_into_bundle [lod.mesh] out (tgt.joinStr ("lod_" ++ toString lod.level)) dry
        with ⟨ceffs, copied⟩
      rw [hcopy] at hstr
      have hstr2 : copied = [destStr (tgt.joinStr ("lod_" ++ toString lod.level)) lod.mesh] := hstr
      simp only [hcol, hcopy, hrec, List.map]
      rw [ih2, hstr2]
      simp [lodEntryOut, hcol]
    | some c =>
      have hstr := copy_into_bundle_strings out (tgt.joinStr ("lod_" ++ toString lod.level)) dry
        [lod.mesh, c]
      rcases hcopy : copy_into_bundle [lod.mesh, c] out (tgt.joinStr ("lod_" ++ toString lod.level)) dry
        with ⟨ceffs, copied⟩
      rw [hcopy] at hstr
      have hstr2 : copied
          = [destStr (tgt.joinStr ("lod_" ++ toString lod.level)) lod.mesh,
             destStr (tgt.joinStr ("lod_" ++ toString lod.level)) c] := hstr
      simp only [hcol, hcopy, hrec, List.map]
      rw [ih2, hstr2]
      simp [lodEntryOut, hcol, List.getD]

/-- The sanitized record `processModule` emits is `sanitizedOf`: a function
of the validated module alone — the same in dry-run and real mode, for any
output root. -/
theorem processModule_snd (m : ModuleAsset) (out : PPath) (dry : Bool) :
    (processModule m out dry).2 = sanitizedOf m := by
  unfold processModule
  rcases h1 : processLods out (((parsePath "modules").joinStr m.module_type).joinStr m.module_id)
      dry m.lods with ⟨e1, l1⟩
  rcases h2 : copy_into_bundle m.materials out
      ((((parsePath "modules").joinStr m.module_type).joinStr m.module_id).joinStr "materials") dry
    with ⟨e2, mats⟩
  rcases h3 : copy_into_bundle m.thumbnails out
      ((((parsePath "modules").joinStr m.module_type).joinStr m.module_id).joinStr "thumbnails") dry
    with ⟨e3, thumbs⟩
  rcases h4 : copy_into_bundle m.extra_files out
      ((((parsePath "modules").joinStr m.module_type).joinStr m.module_id).joinStr "extras") dry
    with ⟨e4, extras⟩
  have hl1 : l1 = m.lods.map (lodEntryOut (moduleTarget m)) := by
    have h := processLods_snd out
      (((parsePath "modules").joinStr m.module_type).joinStr m.module_id) dry m.lods
    rw [h1] at h
    exact h
  have hm2 : mats = m.materials.map (fun f =>
      destStr ((moduleTarget m).joinStr "materials") f) := by
    have h := copy_into_bundle_strings out
      ((((parsePath "modules").joinStr m.module_type).joinStr m.module_id).joinStr "materials")
      dry m.materials
    rw [h2] at h
    exact h
  have hm3 : thumbs = m.thumbnails.map (fun f =>
      destStr ((moduleTarget m).joinStr "thumbnails") f) := by
    have h := copy_into_bundle_strings out
      ((((parsePath "modules").joinStr m.module_type).joinStr m.module_id).joinStr "thumbnails")
      dry m.thumbnails
    rw [h3] at h
    exact h
  have hm4 : extras = m.extra_files.map (fun f =>
      destStr ((moduleTarget m).joinStr "extras") f) := by
    have h := copy_into_bundle_strings out
      ((((parsePath "modules").joinStr m.module_type).joinStr m.module_id).joinStr "extras")
      dry m.extra_files
    rw [h4] at h
    exact h
  subst hl1 hm2 hm3 hm4
  simp only [h1, h2, h3, h4]
  simp [sanitizedOf, map_isEmpty, List.map_map, Function.comp_def, moduleTarget]

/-- The module loop's sanitized records and collected messages do not depend
on the dry-run flag. -/
theorem buildLoop_snd_dry (fs : FS) (assets out : PPath) (dry : Bool) :
    ∀ mods : List Json,
      (buildLoop fs assets out dry mods).2 = (buildLoop fs assets out false mods).2 := by
  intro mods
  induction mods with
  | nil => rfl
  | cons d rest ih =>
    unfold buildLoop
    rcases hd : buildLoop fs assets out dry rest with ⟨ed, rd⟩
    rcases hf : buildLoop fs assets out false rest with ⟨ef, rf⟩
    rw [hd, hf] at ih
    have ih2 : rd = rf := ih
    subst ih2
    cases hp : parse_module fs d assets with
    | ok m =>
      rcases hpd : processModule m out dry with ⟨pe, ps⟩
      rcases hpf : processModule m out false with ⟨qe, qs⟩
      have hps : ps = sanitizedOf m := by
        have h := processModule_snd m out dry
        rw [hpd] at h
        exact h
      have hqs : qs = sanitizedOf m := by
        have h := processModule_snd m out false
        rw [hpf] at h
        exact h
      simp only [hp, hpd, hpf, hd, hf, hps, hqs]
    | error e =>
      cases e with
      | crash => simp only [hp]
      | validation v => simp only [hp, hd, hf]

/-- Unfolding equation of `build_bundle` at an object manifest. -/
theorem build_bundle_obj (fs : FS) (assets : PPath) (out : PPath) (dry : Bool)
    (kvs : List (String × Json)) :
    build_bundle fs assets (.obj kvs) out dry
      = (match jget "modules" kvs with
         | none => ([], .error .crash)
         | some mraw =>
           match pyIter mraw with
           | .error _ => ([], .error .crash)
           | .ok mods =>
             match buildLoop fs assets out dry mods with
             | (effs, r) =>
               match r with
               | none => (effs, .error .crash)
               | some (modules_out, errors) =>
                 if errors.isEmpty then
                   match jget "version" kvs with
                   | none => (effs, .error .crash)
                   | some v =>
                     let compiled := Json.obj
                       [("version", v), ("generated", Json.bool true),
                        ("modules", Json.arr modules_out)]
                     if dry then (effs, .ok compiled)
                     else (effs ++ [.mkdirp out,
                             .writeManifest (out.joinStr "ship_art_manifest.compiled.json") compiled],
                           .ok compiled)
                 else (effs, .error (.validation (.buildFailed errors)))) := rfl

/-- C3: over identical input, a dry-run build and a real build (and any two
builds) return the same result — in particular equal compiled manifest
documents, hence byte-identical serializations, the same module count, and
the same computed destination path strings; only the recorded filesystem
effects differ.  (Each build function is a pure Lean function of its input,
so determinism of two identical real runs is definitional.) -/
theorem spec_C3 (fs : FS) (assets : PPath) (doc : Json) (out : PPath) (dry : Bool) :
    (build_bundle fs assets doc out dry).2 = (build_bundle fs assets doc out false).2
    ∧ (runPipeline fs assets doc out dry).2 = (runPipeline fs assets doc out false).2 := by
  have hb : ∀ man : Json,
      (build_bundle fs assets man out dry).2 = (build_bundle fs assets man out false).2 := by
    intro man
    cases man with
    | obj kvs =>
      rw [build_bundle_obj fs assets out dry kvs, build_bundle_obj fs assets out false kvs]
      cases hm : jget "modules" kvs with
      | none => rfl
      | some mraw =>
        simp only []
        cases hpi : pyIter mraw with
        | error e => rfl
        | ok mods =>
          simp only []
          rcases hd : buildLoop fs assets out dry mods with ⟨ed, rd⟩
          rcases hf : buildLoop fs assets out false mods with ⟨ef, rf⟩
          have hr : rd = rf := by
            have h := buildLoop_snd_dry fs assets out dry mods
            rw [hd, hf] at h
            exact h
          subst hr
          simp only [hd, hf]
          cases rd with
          | none => rfl
          | some p =>
            rcases p with ⟨outs, errs⟩
            simp only []
            cases herr : errs.isEmpty with
            | false => simp only [herr, Bool.false_eq_true, if_false]
            | true =>
              simp only [herr, if_true]
              cases hv : jget "version" kvs with
              | none => rfl
              | some v =>
                simp only []
                cases dry <;> simp
    | null => rfl
    | bool b => rfl
    | int n => rfl
    | str s => rfl
    | arr xs => rfl
  refine ⟨hb doc, ?_⟩
  unfold runPipeline
  cases read_manifest doc with
  | error e => rfl
  | ok m => exact hb m

/-- Appending the empty string on the left is the identity. -/
theorem str_empty_append (s : String) : "" ++ s = s := by
  cases s
  show String.mk _ = _
  simp [String.append]

/-- Appending the empty string on the right is the identity. -/
theorem str_append_empty (s : String) : s ++ "" = s := by
  cases s
  show String.mk _ = _
  simp [String.append]

/-- Every element of a joined line list occurs verbatim inside the join. -/
theorem joinLines_split (a : String) : ∀ l : List String, a ∈ l →
    ∃ p q, joinLines l = p ++ a ++ q := by
  intro l
  induction l with
  | nil => intro h; cases h
  | cons x rest ih =>
    intro hmem
    cases rest with
    | nil =>
      have hax : a = x := by simpa using hmem
      subst hax
      refine ⟨"", "", ?_⟩
      show a = "" ++ a ++ ""
      rw [str_empty_append, str_append_empty]
    | cons y ys =>
      rcases List.mem_cons.mp hmem with h | h
      · subst h
        refine ⟨"", "\n" ++ joinLines (y :: ys), ?_⟩
        show a ++ "\n" ++ joinLines (y :: ys) = "" ++ a ++ ("\n" ++ joinLines (y :: ys))
        rw [str_empty_append]
        exact String.append_assoc a "\n" (joinLines (y :: ys))
      · obtain ⟨p, q, hpq⟩ := ih h
        refine ⟨x ++ "\n" ++ p, q, ?_⟩
        show x ++ "\n" ++ joinLines (y :: ys) = x ++ "\n" ++ p ++ a ++ q
        rw [hpq]
        simp [String.append_assoc]

/-- When no module crashes, the loop returns: all effects of the validating
modules in manifest order, every validating module's sanitized record, and
every failing module's message — none dropped, none raised. -/
theorem buildLoop_eq (fs : FS) (assets out : PPath) (dry : Bool) :
    ∀ mods : List Json,
      mods.all (fun d => !isCrashR (parse_module fs d assets)) = true →
      buildLoop fs assets out dry mods
        = (mods.flatMap (fun d =>
             match parse_module fs d assets with
             | .ok m => (processModule m out dry).1
             | _ => []),
           some (mods.filterMap (moduleOut fs assets),
                 mods.filterMap (moduleMsg fs assets))) := by
  intro mods hall
  induction mods with
  | nil => rfl
  | cons d rest ih =>
    rw [List.all_cons, Bool.and_eq_true] at hall
    obtain ⟨h1, h2⟩ := hall
    have ihr := ih h2
    unfold buildLoop
    cases hp : parse_module fs d assets with
    | error e =>
      cases e with
      | crash => rw [hp] at h1; simp [isCrashR] at h1
      | validation v =>
        rw [ihr]
        simp [moduleMsg, moduleOut, hp, List.flatMap_cons, List.filterMap_cons]
    | ok m =>
      rcases hpm : processModule m out dry with ⟨pe, ps⟩
      have hps : ps = sanitizedOf m := by
        have h := processModule_snd m out dry
        rw [hpm] at h
        exact h
      rw [ihr]
      simp [moduleMsg, moduleOut, hp, hpm, hps, List.flatMap_cons, List.filterMap_cons]

/-- C2: with at least one module failing validation (and none crashing),
`build_bundle` still attempts every module: it raises exactly one combined
failure whose error list collects every failing module's message in manifest
order, that list is non-empty, the combined message states the failure
count, and every individual message occurs verbatim inside it. -/
theorem spec_C2 (fs : FS) (assets out : PPath) (dry : Bool)
    (kvs : List (String × Json)) (mods : List Json)
    (hmods : jget "modules" kvs = some (.arr mods))
    (hall : mods.all (fun d => !isCrashR (parse_module fs d assets)) = true)
    (hsome : mods.any (fun d => isVErrR (parse_module fs d assets)) = true) :
    (build_bundle fs assets (.obj kvs) out dry).2
      = .error (.validation (.buildFailed (mods.filterMap (moduleMsg fs assets))))
    ∧ mods.filterMap (moduleMsg fs assets) ≠ []
    ∧ (ValidationError.buildFailed (mods.filterMap (moduleMsg fs assets))).toMessage
        = "Build failed with " ++ toString (mods.filterMap (moduleMsg fs assets)).length
          ++ " error(s):\n" ++ joinLines (mods.filterMap (moduleMsg fs assets))
    ∧ ∀ msg ∈ mods.filterMap (moduleMsg fs assets),
        ∃ p q, (ValidationError.buildFailed (mods.filterMap (moduleMsg fs assets))).toMessage
          = p ++ msg ++ q := by
  have hne : mods.filterMap (moduleMsg fs assets) ≠ [] := by
    rw [List.any_eq_true] at hsome
    obtain ⟨d, hd, hvp⟩ := hsome
    have : ∃ v, parse_module fs d assets = .error (.validation v) := by
      cases hp : parse_module fs d assets with
      | ok m => rw [hp] at hvp; simp [isVErrR] at hvp
      | error e =>
        cases e with
        | crash => rw [hp] at hvp; simp [isVErrR] at hvp
        | validation v => exact ⟨v, rfl⟩
    obtain ⟨v, hv⟩ := this
    have hmem : v.toMessage ∈ mods.filterMap (moduleMsg fs assets) := by
      rw [List.mem_filterMap]
      exact ⟨d, hd, by simp [moduleMsg, hv]⟩
    exact List.ne_nil_of_mem hmem
  have hie : (mods.filterMap (moduleMsg fs assets)).isEmpty = false := by
    cases hmm : mods.filterMap (moduleMsg fs assets) with
    | nil => exact absurd hmm hne
    | cons a l => rfl
  refine ⟨?_, hne, rfl, ?_⟩
  · rw [build_bundle_obj, hmods]
    simp only []
    have hpi : pyIter (.arr mods) = .ok mods := rfl
    rw [hpi]
    simp only []
    rw [buildLoop_eq fs assets out dry mods hall]
    simp only [hie]
    simp
  · intro msg hmsg
    obtain ⟨p, q, hpq⟩ := joinLines_split msg _ hmsg
    refine ⟨"Build failed with " ++ toString (mods.filterMap (moduleMsg fs assets)).length
      ++ " error(s):\n" ++ p, q, ?_⟩
    show "Build failed with " ++ _ ++ " error(s):\n" ++ joinLines (mods.filterMap (moduleMsg fs assets)) = _
    rw [hpq]
    simp [String.append_assoc]

/-- C2 witness: the mixed manifest (duplicate-LOD module, valid module,
missing-file module) yields the single combined failure holding exactly the
two failing modules' messages, in manifest order. -/
theorem spec_C2_witness :
    (build_bundle fsX assetsX manifestMixed outX false).2
      = .error (.validation (.buildFailed
          ["Module 'dup' reuses LOD level 0",
           "Module 'broken' references missing file for mesh: nope.glb"])) :=
  (spec_C2 fsX assetsX outX false
    [("version", .int 1), ("modules", .arr [modLvlDup, modGood, modBroken])]
    [modLvlDup, modGood, modBroken] rfl rfl rfl).1

/-- `copy_into_bundle` only makes directories and copies files; it never
writes the compiled manifest. -/
theorem copy_no_manifest (root sub : PPath) (dry : Bool) (p : PPath) (doc : Json) :
    ∀ files, Effect.writeManifest p doc ∉ (copy_into_bundle files root sub dry).1 := by
  intro files
  induction files with
  | nil => simp [copy_into_bundle]
  | cons src rest ih =>
    unfold copy_into_bundle
    rcases hrec : copy_into_bundle rest root sub dry with ⟨effs, copied⟩
    rw [hrec] at ih
    have ih2 : Effect.writeManifest p doc ∉ effs := ih
    simp only [hrec]
    cases dry <;> simp_all

/-- The LOD copying loop never writes the compiled manifest. -/
theorem processLods_no_manifest (out tgt : PPath) (dry : Bool) (p : PPath) (doc : Json) :
    ∀ lods, Effect.writeManifest p doc ∉ (processLods out tgt dry lods).1 := by
  intro lods
  induction lods with
  | nil => simp [processLods]
  | cons lod rest ih =>
    unfold processLods
    rcases hrec : processLods out tgt dry rest with ⟨reffs, rentries⟩
    rw [hrec] at ih
    have ih2 : Effect.writeManifest p doc ∉ reffs := ih
    rcases hcopy : copy_into_bundle
        (lod.mesh :: (match lod.collision with | some c => [c] | none => []))
        out (tgt.joinStr ("lod_" ++ toString lod.level)) dry with ⟨ceffs, copied⟩
    have hc : Effect.writeManifest p doc ∉ ceffs := by
      have h := copy_no_manifest out (tgt.joinStr ("lod_" ++ toString lod.level)) dry p doc
        (lod.mesh :: (match lod.collision with | some c => [c] | none => []))
      rw [hcopy] at h
      exact h
    simp only [hcopy, hrec]
    simp [List.mem_append, hc, ih2]

/-- Processing one validated module never writes the compiled manifest. -/
theorem processModule_no_manifest (m : ModuleAsset) (out : PPath) (dry : Bool)
    (p : PPath) (doc : Json) :
    Effect.writeManifest p doc ∉ (processModule m out dry).1 := by
  unfold processModule
  rcases h1 : processLods out (((parsePath "modules").joinStr m.module_type).joinStr m.module_id)
      dry m.lods with ⟨e1, l1⟩
  rcases h2 : copy_into_bundle m.materials out
      ((((parsePath "modules").joinStr m.module_type).joinStr m.module_id).joinStr "materials") dry
    with ⟨e2, mats⟩
  rcases h3 : copy_into_bundle m.thumbnails out
      ((((parsePath "modules").joinStr m.module_type).joinStr m.module_id).joinStr "thumbnails") dry
    with ⟨e3, thumbs⟩
  rcases h4 : copy_into_bundle m.extra_files out
      ((((parsePath "modules").joinStr m.module_type).joinStr m.module_id).joinStr "extras") dry
    with ⟨e4, extras⟩
  have k1 : Effect.writeManifest p doc ∉ e1 := by
    have h := processLods_no_manifest out
      (((parsePath "modules").joinStr m.module_type).joinStr m.module_id) dry p doc m.lods
    rw [h1] at h
    exact h
  have k2 : Effect.writeManifest p doc ∉ e2 := by
    have h := copy_no_manifest out
      ((((parsePath "modules").joinStr m.module_type).joinStr m.module_id).joinStr "materials")
      dry p doc m.materials
    rw [h2] at h
    exact h
  have k3 : Effect.writeManifest p doc ∉ e3 := by
    have h := copy_no_manifest out
      ((((parsePath "modules").joinStr m.module_type).joinStr m.module_id).joinStr "thumbnails")
      dry p doc m.thumbnails
    rw [h3] at h
    exact h
  have k4 : Effect.writeManifest p doc ∉ e4 := by
    have h := copy_no_manifest out
      ((((parsePath "modules").joinStr m.module_type).joinStr m.module_id).joinStr "extras")
      dry p doc m.extra_files
    rw [h4] at h
    exact h
  simp only [h1, h2, h3, h4]
  simp [List.mem_append, k1, k2, k3, k4]

/-- C5: in a real (non-dry) build where some module fails validation (and
none crashes), the recorded filesystem effects are exactly the per-module
copies of every module that validated, in manifest order — they are
performed and never rolled back (the effect language has no removal) — while
the compiled manifest is never written. -/
theorem spec_C5 (fs : FS) (assets out : PPath) (kvs : List (String × Json)) (mods : List Json)
    (hmods : jget "modules" kvs = some (.arr mods))
    (hall : mods.all (fun d => !isCrashR (parse_module fs d assets)) = true)
    (hsome : mods.any (fun d => isVErrR (parse_module fs d assets)) = true) :
    (build_bundle fs assets (.obj kvs) out false).1
      = mods.flatMap (fun d =>
          match parse_module fs d assets with
          | .ok m => (processModule m out false).1
          | _ => [])
    ∧ ∀ p doc, Effect.writeManifest p doc ∉ (build_bundle fs assets (.obj kvs) out false).1 := by
  have hne : mods.filterMap (moduleMsg fs assets) ≠ [] := by
    rw [List.any_eq_true] at hsome
    obtain ⟨d, hd, hvp⟩ := hsome
    have hex : ∃ v, parse_module fs d assets = .error (.validation v) := by
      cases hp : parse_module fs d assets with
      | ok m => rw [hp] at hvp; simp [isVErrR] at hvp
      | error e =>
        cases e with
        | crash => rw [hp] at hvp; simp [isVErrR] at hvp
        | validation v => exact ⟨v, rfl⟩
    obtain ⟨v, hv⟩ := hex
    have hmem : v.toMessage ∈ mods.filterMap (moduleMsg fs assets) := by
      rw [List.mem_filterMap]
      exact ⟨d, hd, by simp [moduleMsg, hv]⟩
    exact List.ne_nil_of_mem hmem
  have hie : (mods.filterMap (moduleMsg fs assets)).isEmpty = false := by
    cases hmm : mods.filterMap (moduleMsg fs assets) with
    | nil => exact absurd hmm hne
    | cons a l => rfl
  have hbb : build_bundle fs assets (.obj kvs) out false
      = (mods.flatMap (fun d =>
           match parse_module fs d assets with
           | .ok m => (processModule m out false).1
           | _ => []),
         .error (.validation (.buildFailed (mods.filterMap (moduleMsg fs assets))))) := by
    rw [build_bundle_obj, hmods]
    simp only []
    have hpi : pyIter (.arr mods) = .ok mods := rfl
    rw [hpi]
    simp only []
    rw [buildLoop_eq fs assets out false mods hall]
    simp only [hie]
    simp
  constructor
  · rw [hbb]
  · intro p doc
    rw [hbb]
    simp only []
    rw [List.mem_flatMap]
    rintro ⟨d, hd, hmem⟩
    cases hp : parse_module fs d assets with
    | ok m =>
      rw [hp] at hmem
      exact processModule_no_manifest m out false p doc hmem
    | error e =>
      rw [hp] at hmem
      cases e with
      | crash => cases hmem
      | validation v => cases hmem

/-- C5 witness: building the mixed manifest for real leaves exactly the
valid module's eight copy effects (meshes, collision, material) and no
compiled-manifest write. -/
theorem spec_C5_witness :
    (build_bundle fsX assetsX manifestMixed outX false).1
      = [.mkdirp ⟨true, ["build", "modules", "hull", "core", "lod_0"]⟩,
         .copy ["assets", "mesh0.glb"] ⟨true, ["build", "modules", "hull", "core", "lod_0", "mesh0.glb"]⟩,
         .mkdirp ⟨true, ["build", "modules", "hull", "core", "lod_0"]⟩,
         .copy ["assets", "col0.glb"] ⟨true, ["build", "modules", "hull", "core", "lod_0", "col0.glb"]⟩,
         .mkdirp ⟨true, ["build", "modules", "hull", "core", "lod_1"]⟩,
         .copy ["assets", "mesh1.glb"] ⟨true, ["build", "modules", "hull", "core", "lod_1", "mesh1.glb"]⟩,
         .mkdirp ⟨true, ["build", "modules", "hull", "core", "materials"]⟩,
         .copy ["assets", "mat.png"] ⟨true, ["build", "modules", "hull", "core", "materials", "mat.png"]⟩] :=
  (spec_C5 fsX assetsX outX
    [("version", .int 1), ("modules", .arr [modLvlDup, modGood, modBroken])]
    [modLvlDup, modGood, modBroken] rfl rfl rfl).1

/-- If every entry of the LOD list would pass its own checks in isolation,
but the levels (together with the already-seen set) collide, the LOD loop
fails with the duplicate-level error. -/
theorem parseLods_dup (fs : FS) (assets : PPath) (mid : String) :
    ∀ (l : List Json) (idx : Nat) (seen : List Int),
      (∀ lod ∈ l, validLodB fs assets mid lod = true) →
      ¬ ((l.map lodLevel).Nodup ∧ ∀ lv ∈ l.map lodLevel, lv ∉ seen) →
      ∃ lv, parseLods fs assets mid l idx seen
        = .error (.duplicateLodLevel mid lv) := by
  intro l
  induction l with
  | nil =>
    intro idx seen hv hbad
    exact absurd ⟨List.nodup_nil, by simp⟩ hbad
  | cons lod rest ih =>
    intro idx seen hv hbad
    have hhead := hv lod (List.mem_cons_self lod rest)
    cases lod with
    | null => simp [validLodB] at hhead
    | bool b => simp [validLodB] at hhead
    | int n => simp [validLodB] at hhead
    | str s => simp [validLodB] at hhead
    | arr xs => simp [validLodB] at hhead
    | obj lkvs =>
      unfold validLodB at hhead
      rw [Bool.and_eq_true, Bool.and_eq_true] at hhead
      obtain ⟨⟨hlv, hmesh⟩, hcol⟩ := hhead
      cases hjl : jget "level" lkvs with
      | none => rw [hjl] at hlv; simp at hlv
      | some v =>
        cases v with
        | int lv =>
          rw [hjl] at hlv
          simp at hlv
          have hlveq : lodLevel (.obj lkvs) = lv := by simp [lodLevel, hjl]
          unfold parseLods
          simp only []
          rw [hjl]
          simp only []
          rw [if_neg (not_lt.mpr hlv)]
          by_cases hmem : lv ∈ seen
          · rw [if_pos hmem]
            exact ⟨lv, rfl⟩
          · rw [if_neg hmem]
            cases hm : ensure_relative_path fs assets ((jget "mesh" lkvs).getD .null) "mesh" mid with
            | error e => rw [hm] at hmesh; simp [isOkResolve] at hmesh
            | ok meshp =>
              simp only []
              have hbad2 : ¬ ((rest.map lodLevel).Nodup
                  ∧ ∀ x ∈ rest.map lodLevel, x ∉ lv :: seen) := by
                rintro ⟨hnd, hfresh⟩
                apply hbad
                constructor
                · rw [List.map_cons, hlveq, List.nodup_cons]
                  refine ⟨?_, hnd⟩
                  intro hcontra
                  exact absurd (List.mem_cons_self lv seen) (hfresh lv hcontra)
                · intro x hx
                  rw [List.map_cons, hlveq] at hx
                  rcases List.mem_cons.mp hx with h | h
                  · exact h ▸ hmem
                  · intro hxs
                    exact hfresh x h (List.mem_cons_of_mem lv hxs)
              obtain ⟨lv', hrec⟩ :=
                ih (idx + 1) (lv :: seen) (fun l2 hl2 => hv l2 (List.mem_cons_of_mem _ hl2)) hbad2
              by_cases htr : ((jget "collision" lkvs).getD Json.null).truthy = true
              · have hcres : isOkResolve (ensure_relative_path fs assets
                    ((jget "collision" lkvs).getD .null) "collision" mid) = true := by
                  rw [htr] at hcol
                  simpa using hcol
                rw [if_pos htr]
                cases hc : ensure_relative_path fs assets
                    ((jget "collision" lkvs).getD .null) "collision" mid with
                | error e => rw [hc] at hcres; simp [isOkResolve] at hcres
                | ok cp =>
                  simp only []
                  rw [hrec]
                  exact ⟨lv', rfl⟩
              · rw [if_neg htr]
                simp only []
                rw [hrec]
                exact ⟨lv', rfl⟩
        | null => rw [hjl] at hlv; simp at hlv
        | bool b => rw [hjl] at hlv; simp at hlv
        | str s => rw [hjl] at hlv; simp at hlv
        | arr xs => rw [hjl] at hlv; simp at hlv
        | obj o => rw [hjl] at hlv; simp at hlv

/-- C4: (1) a module definition that passes every other check but whose LOD
list carries a duplicated `level` value always makes `parse_module` raise
the duplicate-LOD-level `ValidationError` (the `reuses LOD level` message)
for that module; (2) the same `level` value appearing in two *different*,
individually valid modules produces no failure at all: the manifest builds
and both modules' sanitized records appear in the compiled document. -/
theorem spec_C4 :
    (∀ (fs : FS) (assets : PPath) (kvs : List (String × Json)) (mid mt : String)
       (lod_raw : List Json),
       jget "id" kvs = some (.str mid) → mid ≠ "" →
       jget "type" kvs = some (.str mt) → mt ∈ MODULE_TYPES →
       jget "lods" kvs = some (.arr lod_raw) →
       (∀ lod ∈ lod_raw, validLodB fs assets mid lod = true) →
       ¬ (lod_raw.map lodLevel).Nodup →
       isDupLodError mid (parse_module fs (.obj kvs) assets) = true)
    ∧ (∀ (fs : FS) (assets out : PPath) (dry : Bool) (kvs : List (String × Json))
         (d1 d2 : Json) (m1 m2 : ModuleAsset) (v : Json),
       jget "modules" kvs = some (.arr [d1, d2]) →
       jget "version" kvs = some v →
       parse_module fs d1 assets = .ok m1 →
       parse_module fs d2 assets = .ok m2 →
       (∃ lv, lv ∈ m1.lods.map LodEntry.level ∧ lv ∈ m2.lods.map LodEntry.level) →
       (build_bundle fs assets (.obj kvs) out dry).2
         = .ok (Json.obj [("version", v), ("generated", Json.bool true),
             ("modules", Json.arr [Json.obj (sanitizedOf m1), Json.obj (sanitizedOf m2)])])) := by
  constructor
  · intro fs assets kvs mid mt lod_raw hid hmid htype hmt hlods hvalid hnodup
    have hraw_ne : lod_raw ≠ [] := by
      intro h
      subst h
      exact hnodup List.nodup_nil
    have hie : lod_raw.isEmpty = false := by
      cases lod_raw with
      | nil => exact absurd rfl hraw_ne
      | cons a l => rfl
    have hbad : ¬ ((lod_raw.map lodLevel).Nodup
        ∧ ∀ lv ∈ lod_raw.map lodLevel, lv ∉ ([] : List Int)) := by
      rintro ⟨hnd, _⟩
      exact hnodup hnd
    obtain ⟨lv, hdup⟩ := parseLods_dup fs assets mid lod_raw 0 [] hvalid hbad
    unfold parse_module
    simp only []
    rw [hid]
    simp only []
    rw [if_neg hmid, htype]
    simp only []
    rw [if_pos hmt, hlods]
    simp only []
    rw [hie]
    simp only [Bool.false_eq_true, if_false]
    rw [hdup]
    simp [liftV, isDupLodError]
  · intro fs assets out dry kvs d1 d2 m1 m2 v hmods hv h1 h2 hshare
    have hall : [d1, d2].all (fun d => !isCrashR (parse_module fs d assets)) = true := by
      simp [List.all_cons, h1, h2, isCrashR]
    have hloop := buildLoop_eq fs assets out dry [d1, d2] hall
    have houts : [d1, d2].filterMap (moduleOut fs assets)
        = [Json.obj (sanitizedOf m1), Json.obj (sanitizedOf m2)] := by
      simp [List.filterMap_cons, moduleOut, h1, h2]
    have hmsgs : [d1, d2].filterMap (moduleMsg fs assets) = [] := by
      simp [List.filterMap_cons, moduleMsg, h1, h2]
    rw [build_bundle_obj, hmods]
    simp only []
    have hpi : pyIter (.arr [d1, d2]) = .ok [d1, d2] := rfl
    rw [hpi]
    simp only []
    rw [hloop, houts, hmsgs]
    simp only [List.isEmpty_nil, if_true]
    rw [hv]
    simp only []
    cases dry <;> rfl

/-- C4 witness: the duplicate-level module `modLvlDup` fails with the
`reuses LOD level` error, while `modGood` and `modShare` — two different
valid modules both using LOD level 0 — build together successfully with
both records in the compiled manifest. -/
theorem spec_C4_witness :
    isDupLodError "dup" (parse_module fsX modLvlDup assetsX) = true
    ∧ (build_bundle fsX assetsX manifestShared outX false).2
      = .ok (Json.obj [("version", .int 1), ("generated", Json.bool true),
          ("modules", Json.arr [Json.obj (sanitizedOf mGood), Json.obj (sanitizedOf mShare)])]) :=
  ⟨spec_C4.1 fsX assetsX
     [("id", .str "dup"), ("type", .str "wing"),
      ("lods", .arr
        [.obj [("level", .int 0), ("mesh", .str "mesh0.glb")],
         .obj [("level", .int 0), ("mesh", .str "mesh1.glb")]])]
     "dup" "wing"
     [.obj [("level", .int 0), ("mesh", .str "mesh0.glb")],
      .obj [("level", .int 0), ("mesh", .str "mesh1.glb")]]
     rfl (by decide) rfl (by decide) rfl (by decide) (by decide),
   spec_C4.2 fsX assetsX outX false
     [("version", .int 1), ("modules", .arr [modGood, modShare])]
     modGood modShare mGood mShare (.int 1) rfl rfl rfl rfl
     ⟨0, by decide, by decide⟩⟩

/-- Association lookup distributes over append: the left list wins. -/
theorem jget_append (k : String) (l1 l2 : List (String × Json)) :
    jget k (l1 ++ l2)
      = (match jget k l1 with | some v => some v | none => jget k l2) := by
  induction l1 with
  | nil => rfl
  | cons kv rest ih =>
    rcases kv with ⟨k', v⟩
    by_cases h : k' = k
    · simp [jget, h]
    · simp [jget, h, ih]

/-- Looking up a key not produced by the pass-through filter yields
nothing. -/
theorem jget_filterMap_not_mem (k : String) (src : List (String × Json)) :
    ∀ keys : List String, k ∉ keys →
      jget k (keys.filterMap (fun k' => (jget k' src).map (fun v => (k', v)))) = none := by
  intro keys
  induction keys with
  | nil => intro _; rfl
  | cons k0 rest ih =>
    intro hk
    rw [List.filterMap_cons]
    have hne : k0 ≠ k := fun h => hk (h ▸ List.mem_cons_self k0 rest)
    have hkr : k ∉ rest := fun h => hk (List.mem_cons_of_mem _ h)
    cases hj : jget k0 src with
    | none => simp [ih hkr]
    | some v => simp [jget, hne, ih hkr]

/-- Looking up a pass-through key in the filtered section agrees with the
source module definition. -/
theorem jget_filterMap_mem (k : String) (src : List (String × Json)) :
    ∀ keys : List String, keys.Nodup → k ∈ keys →
      jget k (keys.filterMap (fun k' => (jget k' src).map (fun v => (k', v)))) = jget k src := by
  intro keys
  induction keys with
  | nil => intro _ h; cases h
  | cons k0 rest ih =>
    intro hnd hk
    rw [List.nodup_cons] at hnd
    obtain ⟨hk0r, hndr⟩ := hnd
    rw [List.filterMap_cons]
    rcases List.mem_cons.mp hk with h | h
    · subst h
      cases hj : jget k src with
      | none => simp [hj, jget_filterMap_not_mem k src rest hk0r]
      | some v => simp [hj, jget]
    · have hne : k0 ≠ k := fun he => hk0r (he ▸ h)
      cases hj : jget k0 src with
      | none => simp [hj, ih hndr h]
      | some v => simp [hj, jget, hne, ih hndr h]

/-- C8: every sanitized module record carries `id`, `type`, `displayName`
and the rewritten `lods`; each recognized pass-through key appears with its
source value exactly when the source module definition has it; and the
`materials`/`thumbnails`/`extraFiles` keys appear if and only if the
corresponding resolved list is non-empty. -/
theorem spec_C8 (m : ModuleAsset) (out : PPath) (dry : Bool) :
    jget "id" (processModule m out dry).2 = some (.str m.module_id)
    ∧ jget "type" (processModule m out dry).2 = some (.str m.module_type)
    ∧ jget "displayName" (processModule m out dry).2 = some m.display_name
    ∧ jget "lods" (processModule m out dry).2
        = some (.arr (m.lods.map (lodEntryOut (moduleTarget m))))
    ∧ (∀ k ∈ passThroughKeys, jget k (processModule m out dry).2 = jget k m.source)
    ∧ jget "materials" (processModule m out dry).2
        = (if m.materials.isEmpty then none
           else some (.arr (m.materials.map
               (fun f => Json.str (destStr ((moduleTarget m).joinStr "materials") f)))))
    ∧ jget "thumbnails" (processModule m out dry).2
        = (if m.thumbnails.isEmpty then none
           else some (.arr (m.thumbnails.map
               (fun f => Json.str (destStr ((moduleTarget m).joinStr "thumbnails") f)))))
    ∧ jget "extraFiles" (processModule m out dry).2
        = (if m.extra_files.isEmpty then none
           else some (.arr (m.extra_files.map
               (fun f => Json.str (destStr ((moduleTarget m).joinStr "extras") f))))) := by
  have hs := processModule_snd m out dry
  rw [hs]
  refine ⟨?_, ?_, ?_, ?_, ?_, ?_, ?_, ?_⟩
  · simp [sanitizedOf, jget_append, jget]
  · simp [sanitizedOf, jget_append, jget]
  · simp [sanitizedOf, jget_append, jget]
  · simp [sanitizedOf, jget_append, jget]
  · intro k hk
    have h1 : "id" ≠ k := by rintro rfl; revert hk; decide
    have h2 : "type" ≠ k := by rintro rfl; revert hk; decide
    have h3 : "displayName" ≠ k := by rintro rfl; revert hk; decide
    have h4 : "lods" ≠ k := by rintro rfl; revert hk; decide
    have h5 : "materials" ≠ k := by rintro rfl; revert hk; decide
    have h6 : "thumbnails" ≠ k := by rintro rfl; revert hk; decide
    have h7 : "extraFiles" ≠ k := by rintro rfl; revert hk; decide
    have hp := jget_filterMap_mem k m.source passThroughKeys (by decide) hk
    cases hsrc : jget k m.source with
    | some v =>
      rw [hsrc] at hp
      cases hm : m.materials.isEmpty <;> cases ht : m.thumbnails.isEmpty <;>
        cases he : m.extra_files.isEmpty <;>
        simp [sanitizedOf, jget_append, jget, h1, h2, h3, h4, h5, h6, h7, hm, ht, he, hp, hsrc]
    | none =>
      rw [hsrc] at hp
      cases hm : m.materials.isEmpty <;> cases ht : m.thumbnails.isEmpty <;>
        cases he : m.extra_files.isEmpty <;>
        simp [sanitizedOf, jget_append, jget, h1, h2, h3, h4, h5, h6, h7, hm, ht, he, hp, hsrc]
  · cases hm : m.materials.isEmpty <;> cases ht : m.thumbnails.isEmpty <;>
      cases he : m.extra_files.isEmpty <;>
      simp [sanitizedOf, jget_append, jget, hm, ht, he,
        jget_filterMap_not_mem "materials" m.source passThroughKeys (by decide)]
  · cases hm : m.materials.isEmpty <;> cases ht : m.thumbnails.isEmpty <;>
      cases he : m.extra_files.isEmpty <;>
      simp [sanitizedOf, jget_append, jget, hm, ht, he,
        jget_filterMap_not_mem "thumbnails" m.source passThroughKeys (by decide)]
  · cases hm : m.materials.isEmpty <;> cases ht : m.thumbnails.isEmpty <;>
      cases he : m.extra_files.isEmpty <;>
      simp [sanitizedOf, jget_append, jget, hm, ht, he,
        jget_filterMap_not_mem "extraFiles" m.source passThroughKeys (by decide)]

/-- C8 witness: on the concrete validated module `mGood`, the pass-through
`description` survives verbatim, `materials` is present (non-empty list),
and `thumbnails` is absent (empty list). -/
theorem spec_C8_witness :
    jget "description" (processModule mGood outX false).2 = some (.str "the hull")
    ∧ jget "materials" (processModule mGood outX false).2
        = some (.arr [.str "modules/hull/core/materials/mat.png"])
    ∧ jget "thumbnails" (processModule mGood outX false).2 = none :=
  ⟨((spec_C8 mGood outX false).2.2.2.2.1 "description" (by decide)).trans rfl,
   ((spec_C8 mGood outX false).2.2.2.2.2.1).trans rfl,
   ((spec_C8 mGood outX false).2.2.2.2.2.2.1).trans rfl⟩

/-- Appending one component to a non-empty component list appends `/` and
the component to the rendering. -/
theorem joinParts_append_one :
    ∀ parts : List String, parts ≠ [] →
      ∀ n, joinParts (parts ++ [n]) = joinParts parts ++ "/" ++ n := by
  intro parts
  induction parts with
  | nil => intro h; exact absurd rfl h
  | cons x rest ih =>
    intro _ n
    cases rest with
    | nil => rfl
    | cons y ys =>
      show x ++ "/" ++ joinParts ((y :: ys) ++ [n]) = x ++ "/" ++ joinParts (y :: ys) ++ "/" ++ n
      rw [ih (by simp) n]
      simp [String.append_assoc]

/-- A non-empty relative path renders as its joined components. -/
theorem asPosix_rel (parts : List String) (h : parts ≠ []) :
    PPath.asPosix ⟨false, parts⟩ = joinParts parts := by
  cases parts with
  | nil => exact absurd rfl h
  | cons x rest =>
    show "" ++ joinParts (x :: rest) = joinParts (x :: rest)
    exact str_empty_append _

/-- Joining a plain single-component name appends exactly that component. -/
theorem joinStr_plain (a : PPath) (n : String) (hn : plainName n) :
    a.joinStr n = ⟨a.isAbs, a.parts ++ [n]⟩ := by
  unfold PPath.joinStr PPath.join
  rw [hn]
  simp

/-- The destination string of a file under a non-empty relative subtree:
the subtree rendering, a slash, and the file's basename. -/
theorem destStr_plain (parts : List String) (hp : parts ≠ []) (src : List String)
    (hn : plainName (pathName src)) :
    destStr ⟨false, parts⟩ src = joinParts parts ++ "/" ++ pathName src := by
  unfold destStr
  rw [joinStr_plain _ _ hn]
  show PPath.asPosix ⟨false, parts ++ [pathName src]⟩ = _
  rw [asPosix_rel (parts ++ [pathName src]) (by simp), joinParts_append_one parts hp]

/-- With a plain id and a plain type the module's destination subtree is
literally `modules/<type>/<id>`. -/
theorem moduleTarget_plain (m : ModuleAsset) (hid : plainName m.module_id)
    (hmt : plainName m.module_type) :
    moduleTarget m = ⟨false, ["modules", m.module_type, m.module_id]⟩ := by
  unfold moduleTarget
  rw [joinStr_plain _ _ hmt, joinStr_plain _ _ hid]
  rfl

/-- C7 counterexample: the module id `.` (a non-empty string the validator
accepts) collapses in `pathlib` joins, so its mesh lands at
`modules/hull/lod_0/mesh0.glb` — not under any `modules/<type>/<id>/`
prefix (`modules/hull/./`): the claimed destination form fails for this
validated module. -/
theorem spec_C7_cex :
    (runPipeline fsX assetsX manifestDotId outX false).2
      = .ok (.obj
          [("version", .int 1), ("generated", .bool true),
           ("modules", .arr
             [.obj [("id", .str "."), ("type", .str "hull"), ("displayName", .str "."),
                    ("lods", .arr [.obj [("level", .int 0),
                                         ("mesh", .str "modules/hull/lod_0/mesh0.glb")]])]])])
    ∧ "modules/hull/./".data.isPrefixOf "modules/hull/lod_0/mesh0.glb".data = false :=
  ⟨rfl, rfl⟩

/-- C7 (amended): for every validated module whose id is a plain path
component (and whose basenames are plain, as every real basename is), each
destination string has exactly the claimed form: LOD meshes and collisions
under `modules/<type>/<id>/lod_<level>/`, and materials, thumbnails and
extra files under `modules/<type>/<id>/materials|thumbnails|extras/`, each
preserving the source file's basename. -/
theorem spec_C7 (fs : FS) (assets out : PPath) (dry : Bool) (defn : Json) (m : ModuleAsset)
    (hparse : parse_module fs defn assets = .ok m)
    (htype : m.module_type ∈ MODULE_TYPES)
    (hid : plainName m.module_id)
    (hlodn : ∀ lod ∈ m.lods, plainName ("lod_" ++ toString lod.level))
    (hnames : ∀ f ∈ m.allFiles, plainName (pathName f)) :
    (processLods out (moduleTarget m) dry m.lods).2
      = m.lods.map (fun lod => Json.obj
          ([("level", Json.int lod.level),
            ("mesh", Json.str ("modules" ++ "/" ++ m.module_type ++ "/" ++ m.module_id
              ++ "/" ++ ("lod_" ++ toString lod.level) ++ "/" ++ pathName lod.mesh))]
           ++ (match lod.collision with
               | some c => [("collision", Json.str ("modules" ++ "/" ++ m.module_type
                   ++ "/" ++ m.module_id ++ "/" ++ ("lod_" ++ toString lod.level)
                   ++ "/" ++ pathName c))]
               | none => [])))
    ∧ (copy_into_bundle m.materials out ((moduleTarget m).joinStr "materials") dry).2
      = m.materials.map (fun f => "modules" ++ "/" ++ m.module_type ++ "/" ++ m.module_id
          ++ "/" ++ "materials" ++ "/" ++ pathName f)
    ∧ (copy_into_bundle m.thumbnails out ((moduleTarget m).joinStr "thumbnails") dry).2
      = m.thumbnails.map (fun f => "modules" ++ "/" ++ m.module_type ++ "/" ++ m.module_id
          ++ "/" ++ "thumbnails" ++ "/" ++ pathName f)
    ∧ (copy_into_bundle m.extra_files out ((moduleTarget m).joinStr "extras") dry).2
      = m.extra_files.map (fun f => "modules" ++ "/" ++ m.module_type ++ "/" ++ m.module_id
          ++ "/" ++ "extras" ++ "/" ++ pathName f) := by
  have hmt : plainName m.module_type := by
    unfold MODULE_TYPES at htype
    rcases List.mem_cons.mp htype with h | htype
    · rw [h]; decide
    rcases List.mem_cons.mp htype with h | htype
    · rw [h]; decide
    rcases List.mem_cons.mp htype with h | htype
    · rw [h]; decide
    rcases List.mem_cons.mp htype with h | htype
    · rw [h]; decide
    cases htype
  have htgt := moduleTarget_plain m hid hmt
  have hmatmem : ∀ f ∈ m.materials, plainName (pathName f) := by
    intro f hf
    refine hnames f ?_
    unfold ModuleAsset.allFiles
    simp [List.mem_append, hf]
  have hthumem : ∀ f ∈ m.thumbnails, plainName (pathName f) := by
    intro f hf
    refine hnames f ?_
    unfold ModuleAsset.allFiles
    simp [List.mem_append, hf]
  have hextmem : ∀ f ∈ m.extra_files, plainName (pathName f) := by
    intro f hf
    refine hnames f ?_
    unfold ModuleAsset.allFiles
    simp [List.mem_append, hf]
  refine ⟨?_, ?_, ?_, ?_⟩
  · rw [processLods_snd]
    apply List.map_congr_left
    intro lod hlod
    have hsub : (moduleTarget m).joinStr ("lod_" ++ toString lod.level)
        = ⟨false, ["modules", m.module_type, m.module_id, "lod_" ++ toString lod.level]⟩ := by
      rw [htgt, joinStr_plain _ _ (hlodn lod hlod)]
      rfl
    have hmeshmem : plainName (pathName lod.mesh) := by
      refine hnames lod.mesh ?_
      unfold ModuleAsset.allFiles
      refine List.mem_append_left _ (List.mem_append_left _ (List.mem_append_left _ ?_))
      exact List.mem_flatMap.mpr ⟨lod, hlod, by simp⟩
    unfold lodEntryOut
    rw [hsub]
    rw [destStr_plain _ (by simp) lod.mesh hmeshmem]
    cases hcol : lod.collision with
    | none => simp [joinParts, String.append_assoc]
    | some c =>
      have hcmem : plainName (pathName c) := by
        refine hnames c ?_
        unfold ModuleAsset.allFiles
        refine List.mem_append_left _ (List.mem_append_left _ (List.mem_append_left _ ?_))
        exact List.mem_flatMap.mpr ⟨lod, hlod, by simp [hcol]⟩
      simp only []
      rw [destStr_plain _ (by simp) c hcmem]
      simp [joinParts, String.append_assoc]
  · rw [copy_into_bundle_strings]
    apply List.map_congr_left
    intro f hf
    have hsub : (moduleTarget m).joinStr "materials"
        = ⟨false, ["modules", m.module_type, m.module_id, "materials"]⟩ := by
      rw [htgt, joinStr_plain _ _ (by decide : plainName "materials")]
      rfl
    rw [hsub, destStr_plain _ (by simp) f (hmatmem f hf)]
    simp [joinParts, String.append_assoc]
  · rw [copy_into_bundle_strings]
    apply List.map_congr_left
    intro f hf
    have hsub : (moduleTarget m).joinStr "thumbnails"
        = ⟨false, ["modules", m.module_type, m.module_id, "thumbnails"]⟩ := by
      rw [htgt, joinStr_plain _ _ (by decide : plainName "thumbnails")]
      rfl
    rw [hsub, destStr_plain _ (by simp) f (hthumem f hf)]
    simp [joinParts, String.append_assoc]
  · rw [copy_into_bundle_strings]
    apply List.map_congr_left
    intro f hf
    have hsub : (moduleTarget m).joinStr "extras"
        = ⟨false, ["modules", m.module_type, m.module_id, "extras"]⟩ := by
      rw [htgt, joinStr_plain _ _ (by decide : plainName "extras")]
      rfl
    rw [hsub, destStr_plain _ (by simp) f (hextmem f hf)]
    simp [joinParts, String.append_assoc]

/-- C7 witness: the validated module `mGood` (plain id `core`) gets exactly
the claimed destination strings for its LODs and its material. -/
theorem spec_C7_witness :
    (processLods outX (moduleTarget mGood) false mGood.lods).2
      = [Json.obj [("level", Json.int 0),
            ("mesh", Json.str "modules/hull/core/lod_0/mesh0.glb"),
            ("collision", Json.str "modules/hull/core/lod_0/col0.glb")],
         Json.obj [("level", Json.int 1),
            ("mesh", Json.str "modules/hull/core/lod_1/mesh1.glb")]]
    ∧ (copy_into_bundle mGood.materials outX ((moduleTarget mGood).joinStr "materials") false).2
      = ["modules/hull/core/materials/mat.png"] :=
  ⟨((spec_C7 fsX assetsX outX false modGood mGood rfl (by decide) (by decide)
      (by decide) (by decide)).1).trans rfl,
   ((spec_C7 fsX assetsX outX false modGood mGood rfl (by decide) (by decide)
      (by decide) (by decide)).2.1).trans rfl⟩
